import Mathlib

/-!
# xbps: package search and package listing

A shallow embedding of

* `bin/xbps-query/search.c`: `search_pkgs_cb`, `print_results`;
* `bin/xbps-bin/main.c`: `list_pkgs_in_dict` and the `list` branch of `main`.

Conventions of the embedding.

* A C string is the list of its characters before the terminating NUL
  (`CStr`); `strlen` is `List.length`.  Lengths are unbounded naturals, which
  is exact for strings shorter than `2^31` bytes (where the `unsigned int` /
  `int` conversions of the source preserve the value).
* `maxcols` is an `Int`; where the source converts it to `size_t` the
  conversion is explicit (`size_t_of_int`).
* A `const char *` local is an `Option CStr`; `none` is a local that was never
  assigned (the two files give none of these locals an initialiser, and the
  getters store through the pointer only when they find a string).
* Code that would read such a local, or write outside a buffer, yields
  `Except.error` with the `Fault` that occurs.
* Text written by `printf` is returned as the list of the strings printed,
  one entry for each call.
* The matching and lookup functions of libxbps that the two files call, and
  the `pkg_state_t` enumerators, are fields of `externs`; the string getters,
  `strcasestr`, `snprintf`, `strncat` and the array iterator are modelled by
  definitions of their own.
-/

namespace Xbps

/-- A C string, without its terminating NUL. -/
abbrev CStr := List Char

/-- Memory faults the embedded code can run into. -/
inductive Fault
  | uninit_read
  | buffer_overflow
  | assert_failed
  deriving DecidableEq, Repr

deriving instance DecidableEq for Except

/-- A package dictionary (one record of the registry or of a repository
index): the objects under the keys `pkgver` and `short_desc`, the state that
`xbps_pkg_state_dictionary` reads (`none` when that call fails) and the
virtual packages the record provides. -/
structure pkg_dict where
  pkgver : Option CStr
  short_desc : Option CStr
  state : Option Nat
  provides : List CStr
  deriving DecidableEq, Repr

/-- What the two source files use from libxbps and from `defs.h`, none of it
defined in them: the matching functions, the registry lookup, the helper that
measures the longest `pkgver`, and the values of the `pkg_state_t`
enumerators. -/
structure externs where
  xbps_match_virtual_pkg_in_dict : pkg_dict → CStr → Bool
  xbps_pkgpattern_match : CStr → CStr → Int
  xbps_pkgdb_get_pkg : CStr → Bool
  find_longest_pkgver : List pkg_dict → Nat
  XBPS_PKG_STATE_INSTALLED : Nat
  XBPS_PKG_STATE_HALF_UNPACKED : Nat
  XBPS_PKG_STATE_UNPACKED : Nat
  XBPS_PKG_STATE_CONFIG_FILES : Nat

/-- The getters `xbps_dictionary_get_cstring_nocopy`,
`prop_dictionary_get_cstring_nocopy` and `xbps_array_get_cstring_nocopy`: the
string found is stored through the pointer argument; when there is none the
pointed-to variable keeps the value it had. -/
def get_cstring_nocopy (found : Option CStr) (cur : Option CStr) : Option CStr :=
  match found with
  | some s => some s
  | none => cur

/-- The libc function `strcasestr(3)` as a truth value (the source only tests the returned
pointer): does `needle` occur in `haystack`, letter case ignored. -/
def strcasestr : CStr → CStr → Bool
  | [], needle => needle.isEmpty
  | c :: cs, needle =>
    (needle.map Char.toLower).isPrefixOf ((c :: cs).map Char.toLower) || strcasestr cs needle

/-! ## search.c -/

/-- The `struct search_data` of search.c; `npatterns` is the length of
`patterns`, and `results` is the flat array of alternating `pkgver`,
`short_desc` strings. -/
structure search_data where
  patterns : List CStr
  maxcols : Int
  results : List CStr
  deriving DecidableEq, Repr

/-- The condition of the `if` on lines 122-127 of search.c. -/
def search_pkgs_cb_match (lib : externs) (pkgd : pkg_dict) (pkgver desc pat : CStr) : Bool :=
  let vpkgfound := lib.xbps_match_virtual_pkg_in_dict pkgd pat
  (lib.xbps_pkgpattern_match pkgver pat != 0) || strcasestr pkgver pat ||
    strcasestr desc pat || vpkgfound

/-- The loop over the patterns (lines 119-131) for one record; `pkgver` and
`desc` are the locals of `search_pkgs_cb` as the two getters left them. -/
def search_pkgs_cb_patterns (lib : externs) (pkgd : pkg_dict) (pkgver desc : Option CStr) :
    List CStr → List CStr → Except Fault (List CStr)
  | [], results => .ok results
  | pat :: pats, results =>
    match pkgver, desc with
    | some pv, some d =>
      if search_pkgs_cb_match lib pkgd pv d pat then
        search_pkgs_cb_patterns lib pkgd pkgver desc pats (results ++ [pv, d])
      else
        search_pkgs_cb_patterns lib pkgd pkgver desc pats results
    | _, _ => .error Fault.uninit_read

/-- The loop over the keys of the index (lines 112-132).  The locals `pkgver`
and `desc` are declared outside the loop and are never reset. -/
def search_pkgs_cb_records (lib : externs) (patterns : List CStr) :
    List pkg_dict → Option CStr → Option CStr → List CStr → Except Fault (List CStr)
  | [], _, _, results => .ok results
  | pkgd :: rest, pkgver, desc, results =>
    let pkgver := get_cstring_nocopy pkgd.pkgver pkgver
    let desc := get_cstring_nocopy pkgd.short_desc desc
    match search_pkgs_cb_patterns lib pkgd pkgver desc patterns results with
    | .error e => .error e
    | .ok results => search_pkgs_cb_records lib patterns rest pkgver desc results

/-- The callback `search_pkgs_cb` on a repository whose index holds the records `idx` in
key order: the return value and the updated `search_data`. -/
def search_pkgs_cb (lib : externs) (idx : List pkg_dict) (sd : search_data) :
    Except Fault (Int × search_data) :=
  match search_pkgs_cb_records lib sd.patterns idx none none sd.results with
  | .error e => .error e
  | .ok results => .ok (0, { sd with results := results })

/-- The flat array that holds a sequence of (pkgver, short_desc) pairs. -/
def flat : List (CStr × CStr) → List CStr
  | [] => []
  | pr :: rest => pr.1 :: pr.2 :: flat rest

/-- A record of an index that has both strings. -/
def mk_pkgd (pkgver desc : CStr) (state : Option Nat) (provides : List CStr) : pkg_dict :=
  { pkgver := some pkgver, short_desc := some desc, state := state, provides := provides }

/-- The pattern matcher in the words of the specification: the virtual
package resolver accepts, or the package-pattern matcher accepts the whole
identity, or the pattern occurs in the identity, or it occurs in the
description, the last two with letter case ignored. -/
def spec_matches (lib : externs) (R : pkg_dict) (pkgver desc P : CStr) : Prop :=
  lib.xbps_match_virtual_pkg_in_dict R P = true ∨
  lib.xbps_pkgpattern_match pkgver P ≠ 0 ∨
  (∃ a b, pkgver.map Char.toLower = a ++ P.map Char.toLower ++ b) ∨
  (∃ a b, desc.map Char.toLower = a ++ P.map Char.toLower ++ b)

/-- The entries the collector of the specification receives from one index:
record after record in index order, a record contributes its (identity,
description) pair once for every pattern that `search_pkgs_cb_match`
accepts. -/
def spec_collect (lib : externs) (patterns : List CStr) : List pkg_dict → List (CStr × CStr)
  | [] => []
  | R :: rest =>
    List.replicate
      (patterns.countP
        (fun P => search_pkgs_cb_match lib R (R.pkgver.getD []) (R.short_desc.getD []) P))
      (R.pkgver.getD [], R.short_desc.getD [])
    ++ spec_collect lib patterns rest

/-- A library instance for concrete evaluations: a record provides the
virtual packages it lists, a pattern matches the identity equal to it, and the
registry holds `foo-1.0_1` only. -/
def sample_lib : externs where
  xbps_match_virtual_pkg_in_dict := fun d p => d.provides.contains p
  xbps_pkgpattern_match := fun pkgver p => if pkgver = p then 1 else 0
  xbps_pkgdb_get_pkg := fun pkgver => pkgver = "foo-1.0_1".toList
  find_longest_pkgver := fun l => (l.map (fun d => (d.pkgver.getD []).length)).foldr max 0
  XBPS_PKG_STATE_INSTALLED := 2
  XBPS_PKG_STATE_HALF_UNPACKED := 6
  XBPS_PKG_STATE_UNPACKED := 1
  XBPS_PKG_STATE_CONFIG_FILES := 4

/-- Conversion of an `int` to `size_t` (64 bits): a negative value wraps. -/
def size_t_of_int (i : Int) : Nat :=
  if i < 0 then (i + 18446744073709551616).toNat else i.toNat

/-- The call `snprintf(out, size, ...)` where `out` has room for `cap` bytes and the
formatted text is `s`: nothing is stored when `size` is 0, otherwise the first
`size - 1` characters of `s` and a NUL.  The result is the string `out` holds
afterwards (`none`: the buffer is still unset).  (A C library that refuses a
`size` above `INT_MAX` stores nothing either, and the `strncat` that follows
then reads the unset buffer: a fault in both readings.) -/
def snprintf (cap size : Nat) (s : CStr) : Except Fault (Option CStr) :=
  if size = 0 then .ok none
  else
    let w := s.take (size - 1)
    if w.length + 1 ≤ cap then .ok (some w) else .error Fault.buffer_overflow

/-- The call `strncat(dst, src, n)` where `dst` has room for `cap` bytes: at most `n`
characters of `src` and a NUL are stored after the string in `dst`. -/
def strncat (cap : Nat) (dst : Option CStr) (src : CStr) (n : Nat) : Except Fault CStr :=
  match dst with
  | none => .error Fault.uninit_read
  | some d =>
    let r := d ++ src.take n
    if r.length + 1 ≤ cap then .ok r else .error Fault.buffer_overflow

/-- First loop of `print_results` (lines 62-68): `i` visits the even indices
of the array; the second argument is the running `tlen`. -/
def print_results_tlen : List CStr → Nat → Nat
  | [], tlen => tlen
  | [pkgver], tlen =>
    let len := pkgver.length
    if tlen = 0 ∨ len > tlen then len else tlen
  | pkgver :: _ :: rest, tlen =>
    let len := pkgver.length
    print_results_tlen rest (if tlen = 0 ∨ len > tlen then len else tlen)

/-- Lines 72-76 of `print_results`: `strncpy` into `char tmp[256]`, the loop
that stores spaces at the indices `strlen(tmp) .. tlen - 1`, and the NUL
stored at the final index `j`.  `strncpy` stores no NUL when `pkgver` has 256
characters or more, so `strlen(tmp)` then runs past the array; the stores are
inside the array only while `j < 256`. -/
def print_results_tmp (pkgver : CStr) (tlen : Nat) : Except Fault CStr :=
  if 256 ≤ pkgver.length then .error Fault.buffer_overflow
  else
    let j := max pkgver.length tlen
    if 256 ≤ j then .error Fault.buffer_overflow
    else .ok (pkgver ++ List.replicate (tlen - pkgver.length) ' ')

/-- Lines 72-93 of `print_results`: what is printed for one result. -/
def print_results_line (lib : externs) (maxcols : Int) (tlen : Nat) (pkgver desc : CStr) :
    Except Fault CStr :=
  match print_results_tmp pkgver tlen with
  | .error e => .error e
  | .ok tmp =>
    let inststr := if lib.xbps_pkgdb_get_pkg pkgver then "[*]".toList else "[-]".toList
    let len := inststr.length + tmp.length + desc.length + 3
    let text := inststr ++ " ".toList ++ tmp ++ " ".toList ++ desc
    if (len : Int) > maxcols then
      -- malloc(sd->maxcols+1) cannot succeed for a negative argument; assert(out)
      if maxcols + 1 < 0 then .error Fault.assert_failed
      else
        let cap := size_t_of_int (maxcols + 1)
        match snprintf cap (size_t_of_int (maxcols - 3)) text with
        | .error e => .error e
        | .ok out => strncat cap out "...\n".toList (size_t_of_int maxcols)
    else .ok (text ++ "\n".toList)

/-- Second loop of `print_results` (lines 69-95).  The last argument is the
local `desc`: the getter at index `i+1` leaves it alone when the array ends
at index `i`. -/
def print_results_loop (lib : externs) (maxcols : Int) (tlen : Nat) :
    List CStr → Option CStr → Except Fault (List CStr)
  | [], _ => .ok []
  | [pkgver], desc =>
    match desc with
    | none => .error Fault.uninit_read
    | some d =>
      match print_results_line lib maxcols tlen pkgver d with
      | .error e => .error e
      | .ok l => .ok [l]
  | pkgver :: desc :: rest, _ =>
    match print_results_line lib maxcols tlen pkgver desc with
    | .error e => .error e
    | .ok l =>
      match print_results_loop lib maxcols tlen rest (some desc) with
      | .error e => .error e
      | .ok ls => .ok (l :: ls)

/-- The function `print_results`: the strings printed, in order. -/
def print_results (lib : externs) (sd : search_data) : Except Fault (List CStr) :=
  print_results_loop lib sd.maxcols (print_results_tlen sd.results 0) sd.results none

/-- The alignment width of the specification (step 1): the largest length of
an identity of the result set, 0 for the empty set. -/
def spec_tlen : List (CStr × CStr) → Nat
  | [] => 0
  | pr :: rest => max pr.1.length (spec_tlen rest)

/-- The state marker of the specification (step 3 of the formatter). -/
def spec_marker (lib : externs) (pkgver : CStr) : CStr :=
  if lib.xbps_pkgdb_get_pkg pkgver then "[*]".toList else "[-]".toList

/-- The identity padded with trailing spaces to width `tlen` (step 2). -/
def spec_padded (tlen : Nat) (pkgver : CStr) : CStr :=
  pkgver ++ List.replicate (tlen - pkgver.length) ' '

/-- The candidate line of the specification (step 4):
marker, space, padded identity, space, description. -/
def spec_candidate (lib : externs) (tlen : Nat) (pkgver desc : CStr) : CStr :=
  spec_marker lib pkgver ++ " ".toList ++ spec_padded tlen pkgver ++ " ".toList ++ desc

/-- The line `print_results` prints for one result when no fault occurs: the
candidate line and a newline when the candidate is shorter than `maxcols`,
else the first `maxcols - 4` characters of the candidate, three dots and a
newline. -/
def printed_line (lib : externs) (maxcols : Int) (tlen : Nat) (pkgver desc : CStr) : CStr :=
  if ((spec_candidate lib tlen pkgver desc).length : Int) < maxcols then
    spec_candidate lib tlen pkgver desc ++ "\n".toList
  else
    (spec_candidate lib tlen pkgver desc).take (maxcols - 4).toNat ++ "...\n".toList

/-! ## main.c -/

/-- The value of `EINVAL` in `errno.h`. -/
def EINVAL : Int := 22

/-- The value of `EXIT_FAILURE` in `stdlib.h`. -/
def EXIT_FAILURE : Int := 1

/-- The `struct list_pkgver_cb` of main.c. -/
structure list_pkgver_cb where
  state : Nat
  pkgver_len : Nat
  deriving DecidableEq, Repr

/-- The callback `list_pkgs_in_dict`: the return value and what is printed.
The locals `pkgver` and `short_desc` have no initialiser and a getter that
finds no string leaves its local as it is: for an absent key the test on line
84, or the `strlcpy` and `printf` after it, reads a local that was never
assigned.  A string that a getter stores is not NULL, so with both strings
found the test on line 84 is false and line 85 is not reached.  `calloc` is
taken to succeed. -/
def list_pkgs_in_dict (lib : externs) (obj : pkg_dict) (lpc : list_pkgver_cb) :
    Except Fault (Int × List CStr) :=
  match obj.state with
  | none => .ok (EINVAL, [])
  | some curstate =>
    if (if lpc.state = 0 then curstate ≠ lib.XBPS_PKG_STATE_INSTALLED
        else curstate ≠ lpc.state) then .ok (0, [])
    else
      let pkgver := get_cstring_nocopy obj.pkgver none
      let short_desc := get_cstring_nocopy obj.short_desc none
      match pkgver, short_desc with
      | some pv, some sdesc =>
        -- strlcpy(tmp, pkgver, pkgver_len + 1) keeps at most pkgver_len characters
        let tmp := pv.take lpc.pkgver_len
        let tmp := tmp ++ List.replicate (lpc.pkgver_len - tmp.length) ' '
        .ok (0, [tmp ++ " ".toList ++ sdesc ++ "\n".toList])
      | _, _ => .error Fault.uninit_read

/-- Modelled from the spec: `xbps_callback_array_iter_in_dict` belongs to
libxbps and is not in the two files.  The specification has it visit the
records in order and hand a failure of the visitor to the caller; the scan
ends at the first visitor that does not return 0. -/
def xbps_callback_array_iter_in_dict (fn : pkg_dict → Except Fault (Int × List CStr)) :
    List pkg_dict → Except Fault (Int × List CStr)
  | [] => .ok (0, [])
  | obj :: rest =>
    match fn obj with
    | .error e => .error e
    | .ok (rv, out) =>
      if rv ≠ 0 then .ok (rv, out)
      else
        match xbps_callback_array_iter_in_dict fn rest with
        | .error e => .error e
        | .ok (rv2, out2) => .ok (rv2, out ++ out2)

/-- How the process ends: the argument of `exit` and the text written to the
two streams. -/
structure exit_state where
  status : Int
  stdout : List CStr
  stderr : List CStr
  deriving DecidableEq, Repr

/-- The text that `usage` writes. -/
def usage_text : CStr :=
  "Usage: xbps-bin [options] [target] [arguments]\nSee xbps-bin(8) for more information.\n".toList

/-- The message of lines 327-330 for the argument `a`. -/
def invalid_state_text (a : CStr) : CStr :=
  "E: invalid state `".toList ++ a ++
    "'. Accepted values: config-files, unpacked, installed [default]\n".toList

/-- Lines 316-335 of `main`: the value of `lpc.state` for `argv[1]`, and
whether the final `else` (the invalid-state exit) is taken.  The test for
`installed` is an `if` of its own; the `else` belongs to the chain that
starts with the test for `half-unpacked`. -/
def main_list_state (lib : externs) (argv1 : Option CStr) : Nat × Bool :=
  match argv1 with
  | none => (0, false)
  | some a =>
    let state := if a = "installed".toList then lib.XBPS_PKG_STATE_INSTALLED else 0
    if a = "half-unpacked".toList then (lib.XBPS_PKG_STATE_HALF_UNPACKED, false)
    else if a = "unpacked".toList then (lib.XBPS_PKG_STATE_UNPACKED, false)
    else if a = "config-files".toList then (lib.XBPS_PKG_STATE_CONFIG_FILES, false)
    else (state, true)

/-- The `list` branch of `main` (lines 306-342) followed by `out:`.  `args`
are the arguments after the word `list`, so `argc` is `args.length + 1` and
`argv[1]` is the head of `args`; `regpkgdb` is the `packages` array of
`xhp->regpkgdb_dictionary`, `none` when that dictionary is NULL. -/
def main_list (lib : externs) (regpkgdb : Option (List pkg_dict)) (args : List CStr) :
    Except Fault exit_state :=
  let argc := args.length + 1
  if argc < 1 ∨ argc > 2 then .ok ⟨EXIT_FAILURE, [], [usage_text]⟩
  else
    match regpkgdb with
    | none => .ok ⟨0, ["No packages currently installed.\n".toList], []⟩
    | some packages =>
      let (state, invalid) := main_list_state lib args.head?
      if invalid then .ok ⟨-1, [], [invalid_state_text (args.head?.getD [])]⟩
      else
        let lpc : list_pkgver_cb := ⟨state, lib.find_longest_pkgver packages⟩
        match xbps_callback_array_iter_in_dict (fun obj => list_pkgs_in_dict lib obj lpc)
            packages with
        | .error e => .error e
        | .ok (rv, out) => .ok ⟨rv, out, []⟩

theorem strcasestr_iff (h n : CStr) :
    strcasestr h n = true ↔ ∃ a b, h.map Char.toLower = a ++ n.map Char.toLower ++ b := by
  induction h with
  | nil =>
    cases n with
    | nil => simp [strcasestr]
    | cons x xs => simp [strcasestr]
  | cons c cs ih =>
    simp only [strcasestr, Bool.or_eq_true, ih, List.isPrefixOf_iff_prefix]
    constructor
    · rintro (⟨t, ht⟩ | ⟨a, b, hab⟩)
      · exact ⟨[], t, by simpa using ht.symm⟩
      · exact ⟨c.toLower :: a, b, by simp [hab]⟩
    · rintro ⟨a, b, hab⟩
      cases a with
      | nil => exact Or.inl ⟨b, by simpa using hab.symm⟩
      | cons x a =>
        right
        simp only [List.map_cons, List.cons_append, List.cons.injEq] at hab
        exact ⟨a, b, hab.2⟩

theorem search_pkgs_cb_match_iff (lib : externs) (R : pkg_dict) (pkgver desc P : CStr) :
    search_pkgs_cb_match lib R pkgver desc P = true ↔ spec_matches lib R pkgver desc P := by
  simp only [search_pkgs_cb_match, spec_matches, Bool.or_eq_true, bne_iff_ne, strcasestr_iff]
  constructor
  · rintro (((h | h) | h) | h)
    · exact Or.inr (Or.inl h)
    · exact Or.inr (Or.inr (Or.inl h))
    · exact Or.inr (Or.inr (Or.inr h))
    · exact Or.inl h
  · rintro (h | h | h | h)
    · exact Or.inr h
    · exact Or.inl (Or.inl (Or.inl h))
    · exact Or.inl (Or.inl (Or.inr h))
    · exact Or.inl (Or.inr h)


/-! ### The formatter -/

theorem print_results_tlen_flat (pairs : List (CStr × CStr)) (t : Nat) :
    print_results_tlen (flat pairs) t = max t (spec_tlen pairs) := by
  induction pairs generalizing t with
  | nil => simp [flat, print_results_tlen, spec_tlen]
  | cons pr rest ih =>
    simp only [flat, print_results_tlen, spec_tlen, ih]
    split <;> omega

theorem spec_tlen_ge (pairs : List (CStr × CStr)) :
    ∀ pr ∈ pairs, pr.1.length ≤ spec_tlen pairs := by
  induction pairs with
  | nil => simp
  | cons q rest ih =>
    intro pr hpr
    simp only [spec_tlen]
    rcases List.mem_cons.mp hpr with h | h
    · subst h; omega
    · have := ih pr h; omega

theorem spec_tlen_attained (pairs : List (CStr × CStr)) (hne : pairs ≠ []) :
    ∃ pr ∈ pairs, pr.1.length = spec_tlen pairs := by
  induction pairs with
  | nil => exact absurd rfl hne
  | cons q rest ih =>
    simp only [spec_tlen]
    by_cases hq : spec_tlen rest ≤ q.1.length
    · exact ⟨q, List.mem_cons_self _ _, by omega⟩
    · have hrest : rest ≠ [] := by
        rintro rfl
        simp [spec_tlen] at hq
      obtain ⟨pr, hpr, hlen⟩ := ih hrest
      exact ⟨pr, List.mem_cons_of_mem _ hpr, by omega⟩

theorem spec_padded_length (tlen : Nat) (pkgver : CStr) (h : pkgver.length ≤ tlen) :
    (spec_padded tlen pkgver).length = tlen := by
  simp [spec_padded]; omega

theorem spec_marker_length (lib : externs) (pkgver : CStr) :
    (spec_marker lib pkgver).length = 3 := by
  unfold spec_marker; split <;> rfl

theorem spec_candidate_length (lib : externs) (tlen : Nat) (pkgver desc : CStr)
    (h : pkgver.length ≤ tlen) :
    (spec_candidate lib tlen pkgver desc).length = tlen + desc.length + 5 := by
  simp [spec_candidate, spec_marker_length, spec_padded_length tlen pkgver h]; omega

theorem print_results_tmp_eq (pkgver : CStr) (tlen : Nat) (h : pkgver.length ≤ tlen) :
    print_results_tmp pkgver tlen =
      if 256 ≤ tlen then .error Fault.buffer_overflow else .ok (spec_padded tlen pkgver) := by
  unfold print_results_tmp spec_padded
  have hmax : max pkgver.length tlen = tlen := by omega
  simp only [hmax]
  by_cases h1 : 256 ≤ pkgver.length
  · have h2 : 256 ≤ tlen := by omega
    simp [h1, h2]
  · simp [h1]

/-- What `print_results` prints for one result, case by case. -/
theorem print_results_line_eq (lib : externs) (c : Int) (tlen : Nat) (pkgver desc : CStr)
    (h : pkgver.length ≤ tlen) :
    print_results_line lib c tlen pkgver desc =
      if 256 ≤ tlen then .error Fault.buffer_overflow
      else if ((spec_candidate lib tlen pkgver desc).length : Int) < c then
        .ok (spec_candidate lib tlen pkgver desc ++ "\n".toList)
      else if c + 1 < 0 then .error Fault.assert_failed
      else if c < 3 then .error Fault.buffer_overflow
      else if c = 3 then .error Fault.uninit_read
      else .ok ((spec_candidate lib tlen pkgver desc).take (c - 4).toNat ++ "...\n".toList) := by
  have hcl := spec_candidate_length lib tlen pkgver desc h
  have hml := spec_marker_length lib pkgver
  have hpl := spec_padded_length tlen pkgver h
  unfold print_results_line
  rw [print_results_tmp_eq pkgver tlen h]
  by_cases h256 : 256 ≤ tlen
  · simp [h256]
  · simp only [h256, if_false]
    have hm : (if lib.xbps_pkgdb_get_pkg pkgver = true then "[*]".toList else "[-]".toList)
        = spec_marker lib pkgver := rfl
    simp only [hm, hml, hpl]
    have hc : spec_marker lib pkgver ++ " ".toList ++ spec_padded tlen pkgver ++ " ".toList ++ desc
        = spec_candidate lib tlen pkgver desc := rfl
    simp only [hc]
    by_cases hfit : ((spec_candidate lib tlen pkgver desc).length : Int) < c
    · have : ¬ (((3 + tlen + desc.length + 3 : Nat) : Int) > c) := by
        rw [hcl] at hfit; push_cast at hfit ⊢; omega
      rw [if_neg this, if_pos hfit]
    · have hgt : (((3 + tlen + desc.length + 3 : Nat) : Int) > c) := by
        rw [hcl] at hfit; push_cast at hfit ⊢; omega
      simp only [hgt, if_true, hfit, if_false]
      by_cases hneg : c + 1 < 0
      · simp [hneg]
      · simp only [hneg, if_false]
        by_cases hlt3 : c < 3
        · simp only [hlt3, if_true]
          have hsz : size_t_of_int (c - 3) = (c - 3 + 18446744073709551616).toNat := by
            unfold size_t_of_int; rw [if_pos (by omega)]
          have hcap : size_t_of_int (c + 1) = (c + 1).toNat := by
            unfold size_t_of_int; rw [if_neg (by omega)]
          unfold snprintf
          rw [hsz, hcap]
          have h0 : ¬ ((c - 3 + 18446744073709551616).toNat = 0) := by omega
          simp only [h0, if_false]
          have hlen : ¬ ((List.take ((c - 3 + 18446744073709551616).toNat - 1)
              (spec_candidate lib tlen pkgver desc)).length + 1 ≤ (c + 1).toNat) := by
            rw [List.length_take, hcl]; omega
          rw [if_neg hlen]
        · simp only [hlt3, if_false]
          have hsz : size_t_of_int (c - 3) = (c - 3).toNat := by
            unfold size_t_of_int; rw [if_neg (by omega)]
          have hcap : size_t_of_int (c + 1) = (c + 1).toNat := by
            unfold size_t_of_int; rw [if_neg (by omega)]
          have hn : size_t_of_int c = c.toNat := by
            unfold size_t_of_int; rw [if_neg (by omega)]
          rw [hsz, hcap, hn]
          by_cases h3 : c = 3
          · subst h3
            simp [snprintf, strncat]
          · simp only [h3, if_false]
            unfold snprintf
            have h0 : ¬ ((c - 3).toNat = 0) := by omega
            simp only [h0, if_false]
            have hlen : (List.take ((c - 3).toNat - 1)
                (spec_candidate lib tlen pkgver desc)).length + 1 ≤ (c + 1).toNat := by
              rw [List.length_take, hcl]; omega
            simp only [hlen, if_true]
            unfold strncat
            have htk : List.take c.toNat "...\n".toList = "...\n".toList := by
              apply List.take_of_length_le
              show 4 ≤ c.toNat
              omega
            have hidx : (c - 3).toNat - 1 = (c - 4).toNat := by omega
            rw [htk, hidx]
            have hlen2 : (List.take (c - 4).toNat (spec_candidate lib tlen pkgver desc)
                ++ "...\n".toList).length + 1 ≤ (c + 1).toNat := by
              rw [List.length_append, List.length_take, hcl]
              show min _ _ + 4 + 1 ≤ _
              omega
            simp only [hlen2, if_true]

theorem print_results_line_ok (lib : externs) (c : Int) (tlen : Nat) (pkgver desc L : CStr)
    (h : pkgver.length ≤ tlen) (hL : print_results_line lib c tlen pkgver desc = .ok L) :
    L = printed_line lib c tlen pkgver desc ∧ tlen ≤ 255 ∧
      (((spec_candidate lib tlen pkgver desc).length : Int) < c ∨ 4 ≤ c) := by
  rw [print_results_line_eq lib c tlen pkgver desc h] at hL
  unfold printed_line
  split at hL
  · cases hL
  · split at hL
    · rename_i h1 h2
      rw [if_pos h2]
      injection hL with hL
      exact ⟨hL.symm, by omega, Or.inl h2⟩
    · rename_i h1 h2
      rw [if_neg h2]
      split at hL
      · cases hL
      · split at hL
        · cases hL
        · split at hL
          · cases hL
          · injection hL with hL
            exact ⟨hL.symm, by omega, Or.inr (by omega)⟩

theorem print_results_line_printed (lib : externs) (c : Int) (tlen : Nat) (pkgver desc : CStr)
    (h : pkgver.length ≤ tlen) (h255 : tlen ≤ 255)
    (hc : ((spec_candidate lib tlen pkgver desc).length : Int) < c ∨ 4 ≤ c) :
    print_results_line lib c tlen pkgver desc = .ok (printed_line lib c tlen pkgver desc) := by
  rw [print_results_line_eq lib c tlen pkgver desc h]
  unfold printed_line
  rw [if_neg (by omega)]
  by_cases hfit : ((spec_candidate lib tlen pkgver desc).length : Int) < c
  · rw [if_pos hfit, if_pos hfit]
  · have h4 : 4 ≤ c := by
      rcases hc with hc | hc
      · exact absurd hc hfit
      · exact hc
    rw [if_neg hfit, if_neg hfit, if_neg (by omega), if_neg (by omega), if_neg (by omega)]

theorem print_results_loop_flat (lib : externs) (c : Int) (tlen : Nat)
    (pairs : List (CStr × CStr)) (d0 : Option CStr) (lines : List CStr) :
    print_results_loop lib c tlen (flat pairs) d0 = .ok lines ↔
      List.Forall₂ (fun pr L => print_results_line lib c tlen pr.1 pr.2 = .ok L) pairs lines := by
  induction pairs generalizing d0 lines with
  | nil =>
    simp only [flat, print_results_loop, List.forall₂_nil_left_iff]
    constructor
    · intro h; injection h with h; exact h.symm
    · intro h; rw [h]
  | cons pr rest ih =>
    simp only [flat, print_results_loop, List.forall₂_cons_left_iff]
    cases hline : print_results_line lib c tlen pr.1 pr.2 with
    | error e =>
      simp only []
      constructor
      · intro h; cases h
      · rintro ⟨b, u, hb, _, _⟩; cases hb
    | ok l =>
      simp only []
      cases hrest : print_results_loop lib c tlen (flat rest) (some pr.2) with
      | error e =>
        simp only []
        constructor
        · intro h; cases h
        · rintro ⟨b, u, _, hu, _⟩
          rw [← ih (some pr.2) u, hrest] at hu
          cases hu
      | ok ls =>
        simp only []
        constructor
        · intro h
          injection h with h
          exact ⟨l, ls, rfl, (ih (some pr.2) ls).mp hrest, h.symm⟩
        · rintro ⟨b, u, hb, hu, hlines⟩
          injection hb with hb
          rw [← ih (some pr.2) u, hrest] at hu
          injection hu with hu
          rw [hlines, hb, hu]

/-- Whatever `print_results` prints is the list of the printed lines of the
results, with `tlen` the largest identity length. -/
theorem print_results_ok (lib : externs) (patterns : List CStr) (c : Int)
    (pairs : List (CStr × CStr)) (lines : List CStr)
    (h : print_results lib ⟨patterns, c, flat pairs⟩ = .ok lines) :
    lines = pairs.map (fun pr => printed_line lib c (spec_tlen pairs) pr.1 pr.2) ∧
      (pairs ≠ [] → spec_tlen pairs ≤ 255) := by
  unfold print_results at h
  simp only [print_results_tlen_flat, Nat.zero_max] at h
  rw [print_results_loop_flat] at h
  have hge := spec_tlen_ge pairs
  generalize spec_tlen pairs = tlen at h hge
  clear patterns
  induction h with
  | nil => simp
  | @cons pr L rest ls hL _ ih =>
    have h1 := print_results_line_ok lib c tlen pr.1 pr.2 L (hge pr (List.mem_cons_self _ _)) hL
    have h2 := ih (fun q hq => hge q (List.mem_cons_of_mem _ hq))
    refine ⟨?_, fun _ => h1.2.1⟩
    rw [List.map_cons, ← h2.1, ← h1.1]

/-- No fault: `print_results` runs to its end when no identity is longer than 255
characters and `maxcols` is at least 4. -/
theorem print_results_total (lib : externs) (patterns : List CStr) (c : Int)
    (pairs : List (CStr × CStr)) (h255 : spec_tlen pairs ≤ 255) (hc : 4 ≤ c) :
    print_results lib ⟨patterns, c, flat pairs⟩ =
      .ok (pairs.map (fun pr => printed_line lib c (spec_tlen pairs) pr.1 pr.2)) := by
  unfold print_results
  simp only [print_results_tlen_flat, Nat.zero_max]
  rw [print_results_loop_flat, List.forall₂_map_right_iff, List.forall₂_same]
  intro pr hpr
  exact print_results_line_printed lib c _ pr.1 pr.2 (spec_tlen_ge pairs pr hpr) h255 (Or.inr hc)

/-- C2: outside the degenerate case (`maxcols` at least 3 + 1 + `tlen`) every
line that `print_results` prints, its newline left out, is at most `maxcols`
characters long (so the disjunction of the truncation law holds by its first
member); and the lines are printed, one for each result, when no identity is
longer than 255 characters. -/
theorem print_results_within_maxcols (lib : externs) (patterns : List CStr) (c : Int)
    (pairs : List (CStr × CStr))
    (hc : ((print_results_tlen (flat pairs) 0 : Nat) : Int) + 4 ≤ c) :
    (∀ lines, print_results lib ⟨patterns, c, flat pairs⟩ = .ok lines →
      ∀ L ∈ lines, ∃ body, L = body ++ "\n".toList ∧ (body.length : Int) ≤ c) ∧
    (print_results_tlen (flat pairs) 0 ≤ 255 →
      ∃ lines, print_results lib ⟨patterns, c, flat pairs⟩ = .ok lines ∧
        lines.length = pairs.length) := by
  simp only [print_results_tlen_flat, Nat.zero_max] at hc ⊢
  constructor
  · intro lines h L hL
    obtain ⟨hl, _⟩ := print_results_ok lib patterns c pairs lines h
    rw [hl, List.mem_map] at hL
    obtain ⟨pr, hpr, rfl⟩ := hL
    have hcl := spec_candidate_length lib (spec_tlen pairs) pr.1 pr.2 (spec_tlen_ge pairs pr hpr)
    unfold printed_line
    split
    · rename_i hfit
      exact ⟨_, rfl, by omega⟩
    · refine ⟨(spec_candidate lib (spec_tlen pairs) pr.1 pr.2).take (c - 4).toNat ++ "...".toList,
        ?_, ?_⟩
      · rw [List.append_assoc]; rfl
      · rw [List.length_append, List.length_take]
        show ((min _ _ + 3 : Nat) : Int) ≤ c
        omega
  · intro h255
    exact ⟨_, print_results_total lib patterns c pairs h255 (by omega), by simp⟩

/-- C2, at a concrete input: two results on a terminal of 20 columns. -/
theorem print_results_within_maxcols_witness :
    ((print_results_tlen (flat [("foo-1.0_1".toList, "Foo tool".toList),
        ("baz-3.1_1".toList, "baz utility".toList)]) 0 : Nat) : Int) + 4 ≤ 20 ∧
    ∃ lines, print_results sample_lib ⟨[], 20, flat [("foo-1.0_1".toList, "Foo tool".toList),
        ("baz-3.1_1".toList, "baz utility".toList)]⟩ = .ok lines ∧
      ∀ L ∈ lines, ∃ body, L = body ++ "\n".toList ∧ (body.length : Int) ≤ 20 := by
  have h := print_results_within_maxcols sample_lib [] 20
    [("foo-1.0_1".toList, "Foo tool".toList), ("baz-3.1_1".toList, "baz utility".toList)]
    (by decide)
  obtain ⟨lines, hl, _⟩ := h.2 (by decide)
  exact ⟨by decide, lines, hl, h.1 lines hl⟩

/-- C3 fails: with `maxcols` = 13 = 3 + 1 + `tlen` the single result
`foo-1.0_1` is printed as `[*] foo-1...`; the line does not begin with the
marker, a space and the whole identity. -/
theorem print_results_cuts_identity :
    print_results_tlen (flat [("foo-1.0_1".toList, "Foo tool".toList)]) 0 = 9 ∧
    ((print_results_tlen (flat [("foo-1.0_1".toList, "Foo tool".toList)]) 0 : Nat) : Int)
        + 4 ≤ 13 ∧
    print_results sample_lib ⟨[], 13, flat [("foo-1.0_1".toList, "Foo tool".toList)]⟩
      = .ok ["[*] foo-1...\n".toList] ∧
    ¬ (spec_marker sample_lib "foo-1.0_1".toList ++ " ".toList
        ++ spec_padded 9 "foo-1.0_1".toList) <+: "[*] foo-1...\n".toList := by
  decide

/-- C3 as amended: when `maxcols` is at least `tlen` + 8 every line that
`print_results` prints begins with the marker, a space and the whole identity
padded to `tlen`; and the lines are printed when no identity is longer than
255 characters. -/
theorem print_results_keeps_identity (lib : externs) (patterns : List CStr) (c : Int)
    (pairs : List (CStr × CStr))
    (hc : ((print_results_tlen (flat pairs) 0 : Nat) : Int) + 8 ≤ c) :
    (∀ lines, print_results lib ⟨patterns, c, flat pairs⟩ = .ok lines →
      List.Forall₂ (fun pr L =>
        (spec_marker lib pr.1 ++ " ".toList
          ++ spec_padded (print_results_tlen (flat pairs) 0) pr.1) <+: L) pairs lines) ∧
    (print_results_tlen (flat pairs) 0 ≤ 255 →
      ∃ lines, print_results lib ⟨patterns, c, flat pairs⟩ = .ok lines ∧
        lines.length = pairs.length) := by
  simp only [print_results_tlen_flat, Nat.zero_max] at hc ⊢
  constructor
  · intro lines h
    obtain ⟨hl, _⟩ := print_results_ok lib patterns c pairs lines h
    rw [hl, List.forall₂_map_right_iff, List.forall₂_same]
    intro pr hpr
    have hge := spec_tlen_ge pairs pr hpr
    have hpre : (spec_marker lib pr.1 ++ " ".toList ++ spec_padded (spec_tlen pairs) pr.1).length
        = spec_tlen pairs + 4 := by
      rw [List.length_append, List.length_append, spec_marker_length,
        spec_padded_length _ _ hge]
      show 3 + 1 + _ = _
      omega
    have hcand : spec_candidate lib (spec_tlen pairs) pr.1 pr.2
        = (spec_marker lib pr.1 ++ " ".toList ++ spec_padded (spec_tlen pairs) pr.1)
          ++ (" ".toList ++ pr.2) := by
      unfold spec_candidate; simp only [List.append_assoc]
    unfold printed_line
    rw [hcand]
    split
    · exact ⟨" ".toList ++ pr.2 ++ "\n".toList, by simp only [List.append_assoc]⟩
    · rw [List.take_append_eq_append_take, List.take_of_length_le (by rw [hpre]; omega)]
      exact ⟨_, (List.append_assoc _ _ _).symm⟩
  · intro h255
    exact ⟨_, print_results_total lib patterns c pairs h255 (by omega), by simp⟩

/-- C3 as amended, at a concrete input: `maxcols` = 17 = `tlen` + 8. -/
theorem print_results_keeps_identity_witness :
    ((print_results_tlen (flat [("foo-1.0_1".toList, "Foo tool".toList)]) 0 : Nat) : Int)
        + 8 ≤ 17 ∧
    ∃ lines, print_results sample_lib ⟨[], 17, flat [("foo-1.0_1".toList, "Foo tool".toList)]⟩
        = .ok lines ∧
      List.Forall₂ (fun pr L =>
        (spec_marker sample_lib pr.1 ++ " ".toList
          ++ spec_padded (print_results_tlen
              (flat [("foo-1.0_1".toList, "Foo tool".toList)]) 0) pr.1) <+: L)
        [("foo-1.0_1".toList, "Foo tool".toList)] lines := by
  have h := print_results_keeps_identity sample_lib [] 17
    [("foo-1.0_1".toList, "Foo tool".toList)] (by decide)
  obtain ⟨lines, hl, _⟩ := h.2 (by decide)
  exact ⟨by decide, lines, hl, h.1 lines hl⟩

/-- C4 fails: the candidate line of `baz-3.1_1`, `baz utility` has 25
characters; with `maxcols` = 25 it is not printed whole but cut to
`[-] baz-3.1_1 baz uti...`. -/
theorem print_results_truncates_at_equal :
    print_results_tlen (flat [("baz-3.1_1".toList, "baz utility".toList)]) 0 = 9 ∧
    spec_candidate sample_lib 9 "baz-3.1_1".toList "baz utility".toList
      = "[-] baz-3.1_1 baz utility".toList ∧
    (spec_candidate sample_lib 9 "baz-3.1_1".toList "baz utility".toList).length = 25 ∧
    print_results sample_lib ⟨[], 25, flat [("baz-3.1_1".toList, "baz utility".toList)]⟩
      = .ok ["[-] baz-3.1_1 baz uti...\n".toList] ∧
    "[-] baz-3.1_1 baz uti...\n".toList
      ≠ spec_candidate sample_lib 9 "baz-3.1_1".toList "baz utility".toList ++ "\n".toList := by
  decide

/-- C4 as amended: the line of a result is the candidate line (marker
`[*]` when the registry has the identity, else `[-]`, a space, the padded
identity, a space, the description) and a newline when the candidate is
shorter than `maxcols`; it is cut, to the first `maxcols - 4` characters of
the candidate followed by three dots, exactly when the candidate has
`maxcols` characters or more.  The lines are printed when no identity is
longer than 255 characters and `maxcols` is at least 4. -/
theorem print_results_candidate_or_cut (lib : externs) (patterns : List CStr) (c : Int)
    (pairs : List (CStr × CStr)) :
    (∀ lines, print_results lib ⟨patterns, c, flat pairs⟩ = .ok lines →
      List.Forall₂ (fun pr L =>
        ((((spec_candidate lib (print_results_tlen (flat pairs) 0) pr.1 pr.2).length : Nat) : Int)
            < c →
          L = spec_candidate lib (print_results_tlen (flat pairs) 0) pr.1 pr.2 ++ "\n".toList) ∧
        (c ≤ (((spec_candidate lib (print_results_tlen (flat pairs) 0) pr.1 pr.2).length : Nat)
            : Int) →
          L = (spec_candidate lib (print_results_tlen (flat pairs) 0) pr.1 pr.2).take
              (c - 4).toNat ++ "...\n".toList)) pairs lines) ∧
    (print_results_tlen (flat pairs) 0 ≤ 255 → 4 ≤ c →
      ∃ lines, print_results lib ⟨patterns, c, flat pairs⟩ = .ok lines ∧
        lines.length = pairs.length) := by
  simp only [print_results_tlen_flat, Nat.zero_max]
  constructor
  · intro lines h
    obtain ⟨hl, _⟩ := print_results_ok lib patterns c pairs lines h
    rw [hl, List.forall₂_map_right_iff, List.forall₂_same]
    intro pr _
    unfold printed_line
    constructor
    · intro hfit; rw [if_pos hfit]
    · intro hge; rw [if_neg (by omega)]
  · intro h255 hc
    exact ⟨_, print_results_total lib patterns c pairs h255 hc, by simp⟩

/-- The padded identity that the second loop builds in `tmp` (lines 72-76)
is the identity followed by `tlen - strlen(pkgver)` spaces, `tlen` characters
in all; it is built for every result when `tlen` is at most 255. -/
theorem print_results_tmp_padded (pairs : List (CStr × CStr)) :
    (∀ pr ∈ pairs, ∀ tmp,
      print_results_tmp pr.1 (print_results_tlen (flat pairs) 0) = .ok tmp →
        tmp = pr.1 ++ List.replicate (print_results_tlen (flat pairs) 0 - pr.1.length) ' ' ∧
        tmp.length = print_results_tlen (flat pairs) 0) ∧
    (print_results_tlen (flat pairs) 0 ≤ 255 →
      ∀ pr ∈ pairs, ∃ tmp,
        print_results_tmp pr.1 (print_results_tlen (flat pairs) 0) = .ok tmp) := by
  simp only [print_results_tlen_flat, Nat.zero_max]
  refine ⟨?_, ?_⟩
  · intro pr hpr tmp htmp
    have hge := spec_tlen_ge pairs pr hpr
    rw [print_results_tmp_eq _ _ hge] at htmp
    split at htmp
    · cases htmp
    · injection htmp with htmp
      rw [← htmp]
      exact ⟨rfl, spec_padded_length _ _ hge⟩
  · intro h255 pr hpr
    rw [print_results_tmp_eq _ _ (spec_tlen_ge pairs pr hpr), if_neg (by omega)]
    exact ⟨_, rfl⟩

/-- C5 fails: with `maxcols` = 15 the two results `qux-1_1` and
`quux-10.2_1` (`tlen` = 11) are printed as `[-] qux-1_1...` and
`[-] quux-10...`: neither line holds the identity padded to 11 characters. -/
theorem print_results_cuts_padding :
    print_results_tlen (flat [("qux-1_1".toList, "Qux".toList),
      ("quux-10.2_1".toList, "Quux lib".toList)]) 0 = 11 ∧
    print_results sample_lib ⟨[], 15, flat [("qux-1_1".toList, "Qux".toList),
      ("quux-10.2_1".toList, "Quux lib".toList)]⟩
      = .ok ["[-] qux-1_1...\n".toList, "[-] quux-10...\n".toList] ∧
    ¬ ("[-] ".toList ++ ("qux-1_1".toList ++ List.replicate (11 - 7) ' '))
        <+: "[-] qux-1_1...\n".toList ∧
    ¬ ("[-] ".toList ++ ("quux-10.2_1".toList ++ List.replicate (11 - 11) ' '))
        <+: "[-] quux-10...\n".toList := by
  decide

/-- C5 as amended: for a non-empty result set the `tlen` of the first loop is
the largest length of an identity (it bounds every identity length and is the
length of one of them, whatever the descriptions are); the identity followed
by `tlen - strlen(pkgver)` spaces has `tlen` characters, and every line that
`print_results` prints without cutting it (candidate shorter than `maxcols`),
or with `maxcols` at least `tlen` + 8, holds it whole after the marker and a
space.  The lines are printed when `tlen` is at most 255 and `maxcols` at
least 4. -/
theorem print_results_padded_identity (lib : externs) (patterns : List CStr) (c : Int)
    (pairs : List (CStr × CStr)) (hne : pairs ≠ []) :
    (∀ pr ∈ pairs, pr.1.length ≤ print_results_tlen (flat pairs) 0) ∧
    (∃ pr ∈ pairs, pr.1.length = print_results_tlen (flat pairs) 0) ∧
    (∀ lines, print_results lib ⟨patterns, c, flat pairs⟩ = .ok lines →
      List.Forall₂ (fun pr L =>
        (pr.1 ++ List.replicate (print_results_tlen (flat pairs) 0 - pr.1.length) ' ').length
          = print_results_tlen (flat pairs) 0 ∧
        ((((spec_candidate lib (print_results_tlen (flat pairs) 0) pr.1 pr.2).length : Nat) : Int)
              < c ∨
            ((print_results_tlen (flat pairs) 0 : Nat) : Int) + 8 ≤ c →
          (spec_marker lib pr.1 ++ " ".toList
            ++ (pr.1 ++ List.replicate (print_results_tlen (flat pairs) 0 - pr.1.length) ' '))
            <+: L)) pairs lines) ∧
    (print_results_tlen (flat pairs) 0 ≤ 255 → 4 ≤ c →
      ∃ lines, print_results lib ⟨patterns, c, flat pairs⟩ = .ok lines ∧
        lines.length = pairs.length) := by
  simp only [print_results_tlen_flat, Nat.zero_max]
  refine ⟨spec_tlen_ge pairs, spec_tlen_attained pairs hne, ?_, ?_⟩
  · intro lines h
    obtain ⟨hl, _⟩ := print_results_ok lib patterns c pairs lines h
    rw [hl, List.forall₂_map_right_iff, List.forall₂_same]
    intro pr hpr
    have hge := spec_tlen_ge pairs pr hpr
    have hpad : (pr.1 ++ List.replicate (spec_tlen pairs - pr.1.length) ' ').length
        = spec_tlen pairs := spec_padded_length _ _ hge
    refine ⟨hpad, fun hcond => ?_⟩
    have hpre : (spec_marker lib pr.1 ++ " ".toList
        ++ (pr.1 ++ List.replicate (spec_tlen pairs - pr.1.length) ' ')).length
        = spec_tlen pairs + 4 := by
      rw [List.length_append, List.length_append, spec_marker_length, hpad]
      show 3 + 1 + _ = _
      omega
    have hcand : spec_candidate lib (spec_tlen pairs) pr.1 pr.2
        = (spec_marker lib pr.1 ++ " ".toList
            ++ (pr.1 ++ List.replicate (spec_tlen pairs - pr.1.length) ' '))
          ++ (" ".toList ++ pr.2) := by
      unfold spec_candidate spec_padded; simp only [List.append_assoc]
    unfold printed_line
    split
    · rw [hcand]
      exact ⟨" ".toList ++ pr.2 ++ "\n".toList, by simp only [List.append_assoc]⟩
    · rename_i hnfit
      have h8 : ((spec_tlen pairs : Nat) : Int) + 8 ≤ c := by
        rcases hcond with h1 | h1
        · exact absurd h1 hnfit
        · exact h1
      rw [hcand, List.take_append_eq_append_take,
        List.take_of_length_le (by rw [hpre]; omega)]
      exact ⟨_, (List.append_assoc _ _ _).symm⟩
  · intro h255 hc
    exact ⟨_, print_results_total lib patterns c pairs h255 hc, by simp⟩

/-- C5 as amended, at a concrete input: the longer description of the first
result does not count, `tlen` is the length 9 of the longest identity, and at
`maxcols` = 80 both lines hold the identity padded to 9 characters. -/
theorem print_results_padded_identity_witness :
    print_results_tlen (flat [("qux-1_1".toList, "a rather long description".toList),
      ("baz-3.1_1".toList, "baz".toList)]) 0 = 9 ∧
    print_results sample_lib ⟨[], 80, flat [("qux-1_1".toList,
      "a rather long description".toList), ("baz-3.1_1".toList, "baz".toList)]⟩
      = .ok ["[-] qux-1_1   a rather long description\n".toList,
             "[-] baz-3.1_1 baz\n".toList] ∧
    ∀ pr ∈ [("qux-1_1".toList, "a rather long description".toList),
        ("baz-3.1_1".toList, "baz".toList)],
      pr.1.length ≤ print_results_tlen (flat [("qux-1_1".toList,
        "a rather long description".toList), ("baz-3.1_1".toList, "baz".toList)]) 0 :=
  ⟨by decide, by decide,
    (print_results_padded_identity sample_lib [] 80
      [("qux-1_1".toList, "a rather long description".toList),
        ("baz-3.1_1".toList, "baz".toList)] (by decide)).1⟩

/-- C10 fails on the code.  With `maxcols` = 3 the size given to `snprintf`
is 0: nothing is stored in `out` and `strncat` reads the unset buffer.  With
`maxcols` = 0 the size -3 becomes a huge `size_t` and the whole line is stored
in the 1 byte allocated.  An identity of 256 characters leaves `tmp` without
a NUL and is padded past the end of the array. -/
theorem print_results_faults :
    print_results sample_lib ⟨[], 3, flat [("foo-1.0_1".toList, "Foo tool".toList)]⟩
      = .error Fault.uninit_read ∧
    print_results sample_lib ⟨[], 0, flat [("foo-1.0_1".toList, "Foo tool".toList)]⟩
      = .error Fault.buffer_overflow ∧
    print_results sample_lib ⟨[], 80, flat [(List.replicate 256 'a', "Foo tool".toList)]⟩
      = .error Fault.buffer_overflow := by
  refine ⟨by decide, by decide, ?_⟩
  have h : ∀ t, print_results_tmp (List.replicate 256 'a') t = .error Fault.buffer_overflow := by
    intro t
    unfold print_results_tmp
    rw [if_pos (by rw [List.length_replicate])]
  simp only [print_results, flat, print_results_loop, print_results_line, h]

/-! ### The collector -/

theorem flat_append (a b : List (CStr × CStr)) : flat (a ++ b) = flat a ++ flat b := by
  induction a with
  | nil => rfl
  | cons x a ih => simp [flat, ih]

theorem search_pkgs_cb_patterns_eq (lib : externs) (R : pkg_dict) (pv d : CStr)
    (pats results : List CStr) :
    search_pkgs_cb_patterns lib R (some pv) (some d) pats results =
      .ok (results ++ flat (List.replicate
        (pats.countP (fun P => search_pkgs_cb_match lib R pv d P)) (pv, d))) := by
  induction pats generalizing results with
  | nil => simp [search_pkgs_cb_patterns, flat]
  | cons P pats ih =>
    unfold search_pkgs_cb_patterns
    by_cases hm : search_pkgs_cb_match lib R pv d P = true
    · simp only [hm, if_true, ih, List.countP_cons_of_pos, List.replicate_succ, flat,
        List.append_assoc, List.cons_append, List.nil_append]
    · have hneg : ¬ (search_pkgs_cb_match lib R pv d P = true) := hm
      simp only [hm, ih, List.countP_cons_of_neg _ _ hneg]
      rfl

theorem search_pkgs_cb_records_eq (lib : externs) (pats : List CStr) (idx : List pkg_dict)
    (pkgver desc : Option CStr) (results : List CStr)
    (hwf : ∀ d ∈ idx, d.pkgver ≠ none ∧ d.short_desc ≠ none) :
    search_pkgs_cb_records lib pats idx pkgver desc results =
      .ok (results ++ flat (spec_collect lib pats idx)) := by
  induction idx generalizing pkgver desc results with
  | nil => simp [search_pkgs_cb_records, spec_collect, flat]
  | cons R rest ih =>
    obtain ⟨h1, h2⟩ := hwf R (List.mem_cons_self _ _)
    obtain ⟨pv, hpv⟩ := Option.ne_none_iff_exists'.mp h1
    obtain ⟨d, hd⟩ := Option.ne_none_iff_exists'.mp h2
    unfold search_pkgs_cb_records
    simp only [hpv, hd, get_cstring_nocopy, search_pkgs_cb_patterns_eq]
    rw [ih _ _ _ (fun q hq => hwf q (List.mem_cons_of_mem _ hq))]
    simp only [spec_collect, hpv, hd, Option.getD_some, flat_append, List.append_assoc]

/-- C1: for a record with identity `pkgver` and description `desc` and a
pattern `P`, `search_pkgs_cb` appends the record (its two strings) to the
results exactly when the virtual-package resolver accepts, or
`xbps_pkgpattern_match` accepts the identity, or `P` occurs in the identity or
in the description with letter case ignored; otherwise the results are left
as they were. -/
theorem search_pkgs_cb_appends_iff (lib : externs) (pkgver desc P : CStr) (state : Option Nat)
    (provides : List CStr) (sd : search_data) :
    (search_pkgs_cb lib [mk_pkgd pkgver desc state provides] { sd with patterns := [P] }
        = .ok (0, { sd with patterns := [P], results := sd.results ++ [pkgver, desc] })
      ↔ spec_matches lib (mk_pkgd pkgver desc state provides) pkgver desc P) ∧
    (search_pkgs_cb lib [mk_pkgd pkgver desc state provides] { sd with patterns := [P] }
        = .ok (0, { sd with patterns := [P] })
      ↔ ¬ spec_matches lib (mk_pkgd pkgver desc state provides) pkgver desc P) := by
  rw [← search_pkgs_cb_match_iff]
  unfold search_pkgs_cb search_pkgs_cb_records
  simp only [mk_pkgd, get_cstring_nocopy, search_pkgs_cb_patterns, search_pkgs_cb_records]
  cases hm : search_pkgs_cb_match lib
      { pkgver := some pkgver, short_desc := some desc, state := state, provides := provides }
      pkgver desc P <;> simp

/-- On an index whose records all have both strings, `search_pkgs_cb`
returns 0 and leaves in `results` what was there before followed by the pairs
of the matching (record, pattern) combinations: records in index order, and
for each record one copy of its pair for every pattern that matches it. -/
theorem search_pkgs_cb_collects (lib : externs) (idx : List pkg_dict) (sd : search_data)
    (hwf : ∀ d ∈ idx, d.pkgver ≠ none ∧ d.short_desc ≠ none) :
    search_pkgs_cb lib idx sd =
      .ok (0, { sd with results := sd.results ++ flat (spec_collect lib sd.patterns idx) }) := by
  unfold search_pkgs_cb
  rw [search_pkgs_cb_records_eq lib sd.patterns idx none none sd.results hwf]

/-- The collector at a concrete input: `baz-3.1_1` is matched by two of the
three patterns and is collected twice, after the entry already present and
before the pair of the next record. -/
theorem search_pkgs_cb_collects_witness :
    search_pkgs_cb sample_lib
      [mk_pkgd "baz-3.1_1".toList "baz utility".toList none [],
       mk_pkgd "qux-1_1".toList "Qux".toList none []]
      ⟨["BAZ".toList, "zzz".toList, "U".toList], 80, ["old".toList, "entry".toList]⟩
    = .ok (0, ⟨["BAZ".toList, "zzz".toList, "U".toList], 80,
        ["old".toList, "entry".toList,
         "baz-3.1_1".toList, "baz utility".toList,
         "baz-3.1_1".toList, "baz utility".toList,
         "qux-1_1".toList, "Qux".toList]⟩) :=
  (search_pkgs_cb_collects sample_lib
    [mk_pkgd "baz-3.1_1".toList "baz utility".toList none [],
     mk_pkgd "qux-1_1".toList "Qux".toList none []]
    ⟨["BAZ".toList, "zzz".toList, "U".toList], 80, ["old".toList, "entry".toList]⟩
    (by decide)).trans (by decide)

/-- C6 fails on the code: the index holds `baz-3.1_1` and, after it, a
record with no `pkgver` and no `short_desc`.  Only the pattern `baz` matches,
and only the first record has a pair to collect (the collector of the
specification receives that pair once), yet `search_pkgs_cb` appends the pair
twice: for the second record the locals still hold the strings of the first,
and they are matched and stored again. -/
theorem search_pkgs_cb_collects_stale :
    flat (spec_collect sample_lib ["baz".toList, "zzz".toList]
      [mk_pkgd "baz-3.1_1".toList "baz utility".toList none []])
      = ["baz-3.1_1".toList, "baz utility".toList] ∧
    search_pkgs_cb sample_lib
      [mk_pkgd "baz-3.1_1".toList "baz utility".toList none [], ⟨none, none, none, []⟩]
      ⟨["baz".toList, "zzz".toList], 80, ["old".toList, "entry".toList]⟩
    = .ok (0, ⟨["baz".toList, "zzz".toList], 80,
        ["old".toList, "entry".toList,
         "baz-3.1_1".toList, "baz utility".toList,
         "baz-3.1_1".toList, "baz utility".toList]⟩) := by
  decide

/-! ### The listing -/

/-- C8 fails on the code: `list installed` with a registry at hand is
rejected.  The `if` that recognises `installed` is not chained to the
`else if` sequence after it, so the final `else` is taken: the message for an
invalid state is written, the status is -1 and no record is visited. -/
theorem main_list_rejects_installed (lib : externs) (packages : List pkg_dict) :
    main_list lib (some packages) ["installed".toList] =
      .ok ⟨-1, [], [invalid_state_text "installed".toList]⟩ := by
  have h : main_list_state lib (some "installed".toList)
      = (lib.XBPS_PKG_STATE_INSTALLED, true) := by
    simp only [main_list_state]
    rw [if_neg (show ¬ ("installed".toList = "half-unpacked".toList) by decide),
      if_neg (show ¬ ("installed".toList = "unpacked".toList) by decide),
      if_neg (show ¬ ("installed".toList = "config-files".toList) by decide), if_pos trivial]
  unfold main_list
  simp only [List.length_singleton, List.head?_cons, h]
  rfl

/-- The three other state words are accepted, and so is a missing argument. -/
theorem main_list_state_accepted (lib : externs) :
    main_list_state lib none = (0, false) ∧
    main_list_state lib (some "half-unpacked".toList)
      = (lib.XBPS_PKG_STATE_HALF_UNPACKED, false) ∧
    main_list_state lib (some "unpacked".toList) = (lib.XBPS_PKG_STATE_UNPACKED, false) ∧
    main_list_state lib (some "config-files".toList)
      = (lib.XBPS_PKG_STATE_CONFIG_FILES, false) := by
  refine ⟨rfl, ?_, ?_, ?_⟩
  · simp only [main_list_state]
    rw [if_pos trivial]
  · simp only [main_list_state]
    rw [if_neg (show ¬ ("unpacked".toList = "half-unpacked".toList) by decide), if_pos trivial]
  · simp only [main_list_state]
    rw [if_neg (show ¬ ("config-files".toList = "half-unpacked".toList) by decide),
      if_neg (show ¬ ("config-files".toList = "unpacked".toList) by decide), if_pos trivial]

/-- Every word other than those three is rejected, with status -1 and
without a visit to any record, when there is a registry. -/
theorem main_list_rejects_other (lib : externs) (packages : List pkg_dict) (a : CStr)
    (h1 : a ≠ "half-unpacked".toList) (h2 : a ≠ "unpacked".toList)
    (h3 : a ≠ "config-files".toList) :
    main_list lib (some packages) [a] = .ok ⟨-1, [], [invalid_state_text a]⟩ := by
  have h : (main_list_state lib (some a)).2 = true := by
    simp only [main_list_state]
    rw [if_neg h1, if_neg h2, if_neg h3]
  unfold main_list
  simp only [List.length_singleton, List.head?_cons, h]
  rfl

/-- Without a registry the state word is not looked at: status 0. -/
theorem main_list_no_registry (lib : externs) (a : CStr) :
    main_list lib none [a] = .ok ⟨0, ["No packages currently installed.\n".toList], []⟩ := by
  unfold main_list
  simp only [List.length_singleton]
  rfl

/-- C9 fails on the code: a record that lacks a string is not skipped.
`search_pkgs_cb` has no test for it: a record without strings that follows
`foo-1.0_1` is matched and collected with the strings of `foo-1.0_1`, which
its locals still hold, and as first record of the index it makes the callback
read locals that were never assigned.  In `list_pkgs_in_dict` the test of line
84 is applied to locals without an initialiser, which no getter has assigned
when the key is absent: an installed record that lacks both strings, or the
description only, makes the callback read a local that was never assigned
where it should print nothing and return 0. -/
theorem malformed_record_not_skipped :
    search_pkgs_cb sample_lib
      [mk_pkgd "foo-1.0_1".toList "Foo tool".toList none [], ⟨none, none, none, []⟩]
      ⟨["foo".toList], 80, []⟩
    = .ok (0, ⟨["foo".toList], 80,
        ["foo-1.0_1".toList, "Foo tool".toList, "foo-1.0_1".toList, "Foo tool".toList]⟩) ∧
    search_pkgs_cb sample_lib [⟨none, some "Foo tool".toList, none, []⟩]
      ⟨["foo".toList], 80, []⟩ = .error Fault.uninit_read ∧
    list_pkgs_in_dict sample_lib ⟨none, none, some 2, []⟩ ⟨0, 9⟩
      = .error Fault.uninit_read ∧
    list_pkgs_in_dict sample_lib ⟨some "foo-1.0_1".toList, none, some 2, []⟩ ⟨0, 9⟩
      = .error Fault.uninit_read := by
  decide

/-! ### The examples of the specification -/

theorem example_list :
    main_list sample_lib
      (some [mk_pkgd "foo-1.0_1".toList "Foo tool".toList (some 2) [],
             mk_pkgd "bar-2.0_1".toList "Bar lib".toList (some 1) []]) []
      = .ok ⟨0, ["foo-1.0_1 Foo tool\n".toList], []⟩ ∧
    main_list sample_lib
      (some [mk_pkgd "foo-1.0_1".toList "Foo tool".toList (some 2) [],
             mk_pkgd "bar-2.0_1".toList "Bar lib".toList (some 1) []]) ["unpacked".toList]
      = .ok ⟨0, ["bar-2.0_1 Bar lib\n".toList], []⟩ := by
  decide

theorem example_search :
    search_pkgs_cb sample_lib [mk_pkgd "baz-3.1_1".toList "baz utility".toList none []]
      ⟨["BAZ".toList], 80, []⟩
      = .ok (0, ⟨["BAZ".toList], 80, ["baz-3.1_1".toList, "baz utility".toList]⟩) ∧
    print_results sample_lib ⟨["BAZ".toList], 80, ["baz-3.1_1".toList, "baz utility".toList]⟩
      = .ok ["[-] baz-3.1_1 baz utility\n".toList] := by
  decide

end Xbps
